import Mathlib

/-!
Verification of the coveralls-api crate (src/lib.rs) against its design
specification.

The crate turns per-file coverage measurements into the JSON wire format of
the coveralls.io ingestion API.  This file gives a shallow embedding of the
crate's data model and operations:

* file contents are modelled as lists of bytes (`List Nat`, each entry the
  value of one byte); `std::fs::File::open` / `read_to_string` are modelled
  by an `Option (List Nat)` input (`none` = the file cannot be opened or
  read) followed by an explicit UTF-8 validity check, exactly the two ways
  `Source::new` can fail with `io::Error` in the Rust code;
* `HashMap<usize, usize>` (the line-hit map) is modelled as a function
  `Nat → Option Nat` (`.get`);
* the `md5` crate's `format!` digest is modelled by a full executable MD5
  implementation over byte lists (`md5Hex`);
* serde serialization is modelled as the ordered list of emitted JSON
  fields; `skip_serializing_if = "Option::is_none"` becomes conditional
  emission of the field, and the hand-written `Serialize` impl for
  `CoverallsReport` (which threads each `serialize_field` call through `?`)
  is modelled twice: once as the total field list (`serializeFields`) and
  once in the fallible serde style (`serializeImpl`), so that the
  unreachability of the error branch in `send_to_endpoint` is a theorem
  rather than a definition.
-/

namespace Coveralls

/-- Representation of branch data (the `BranchData` struct). -/
structure BranchData where
  line_number : Nat
  block_name : Nat
  branch_number : Nat
  hits : Nat

/-- Model of `expand_lines`: the line map is expanded into the form expected
by coveralls (one slot per line, `none` for uncoverable lines).  The Rust
code is `(0..line_count).map(|x| lines.get(&(x+1))).collect()`. -/
def expand_lines (lines : Nat → Option Nat) (line_count : Nat) : List (Option Nat) :=
  (List.range line_count).map (fun x => lines (x + 1))

/-- Model of `expand_branches`: flattens each record into the four fields
`line_number, block_name, branch_number, hits`, in input order
(`branches.iter().flat_map(|x| vec![..]).collect()`). -/
def expand_branches (branches : List BranchData) : List Nat :=
  branches.flatMap (fun x => [x.line_number, x.block_name, x.branch_number, x.hits])

/-! ### MD5

`Source::new` computes `format!("{:x}", md5::compute(content))`.  The `md5`
crate is the reference MD5 implementation (RFC 1321) and its `LowerHex`
instance prints the 16 digest bytes as two lowercase hex digits each; both
are reproduced executably below. -/

/-- One word of MD5 state: 2 ^ 32. -/
def M32 : Nat := 4294967296

/-- The 64 MD5 round constants (floor of 2 ^ 32 * abs (sin (i + 1))). -/
def kTable : List Nat :=
  [0xd76aa478, 0xe8c7b756, 0x242070db, 0xc1bdceee,
   0xf57c0faf, 0x4787c62a, 0xa8304613, 0xfd469501,
   0x698098d8, 0x8b44f7af, 0xffff5bb1, 0x895cd7be,
   0x6b901122, 0xfd987193, 0xa679438e, 0x49b40821,
   0xf61e2562, 0xc040b340, 0x265e5a51, 0xe9b6c7aa,
   0xd62f105d, 0x02441453, 0xd8a1e681, 0xe7d3fbc8,
   0x21e1cde6, 0xc33707d6, 0xf4d50d87, 0x455a14ed,
   0xa9e3e905, 0xfcefa3f8, 0x676f02d9, 0x8d2a4c8a,
   0xfffa3942, 0x8771f681, 0x6d9d6122, 0xfde5380c,
   0xa4beea44, 0x4bdecfa9, 0xf6bb4b60, 0xbebfbc70,
   0x289b7ec6, 0xeaa127fa, 0xd4ef3085, 0x04881d05,
   0xd9d4d039, 0xe6db99e5, 0x1fa27cf8, 0xc4ac5665,
   0xf4292244, 0x432aff97, 0xab9423a7, 0xfc93a039,
   0x655b59c3, 0x8f0ccc92, 0xffeff47d, 0x85845dd1,
   0x6fa87e4f, 0xfe2ce6e0, 0xa3014314, 0x4e0811a1,
   0xf7537e82, 0xbd3af235, 0x2ad7d2bb, 0xeb86d391]

/-- The 64 MD5 per-round left-rotation amounts. -/
def sTable : List Nat :=
  [7, 12, 17, 22, 7, 12, 17, 22, 7, 12, 17, 22, 7, 12, 17, 22,
   5, 9, 14, 20, 5, 9, 14, 20, 5, 9, 14, 20, 5, 9, 14, 20,
   4, 11, 16, 23, 4, 11, 16, 23, 4, 11, 16, 23, 4, 11, 16, 23,
   6, 10, 15, 21, 6, 10, 15, 21, 6, 10, 15, 21, 6, 10, 15, 21]

/-- Bitwise complement on 32-bit words represented as `Nat`. -/
def not32 (x : Nat) : Nat := Nat.xor x 0xffffffff

/-- Left rotation of a 32-bit word. -/
def rotl32 (x s : Nat) : Nat :=
  (Nat.lor (Nat.shiftLeft x s) (Nat.shiftRight x (32 - s))) % M32

/-- Little-endian value of a list of bytes. -/
def le32 (l : List Nat) : Nat := l.foldr (fun b acc => b + 256 * acc) 0

/-- The four little-endian bytes of a 32-bit word. -/
def toLE4 (w : Nat) : List Nat :=
  [w % 256, w / 256 % 256, w / 65536 % 256, w / 16777216 % 256]

/-- The eight little-endian bytes of a 64-bit word. -/
def toLE8 (w : Nat) : List Nat :=
  [w % 256, w / 2 ^ 8 % 256, w / 2 ^ 16 % 256, w / 2 ^ 24 % 256,
   w / 2 ^ 32 % 256, w / 2 ^ 40 % 256, w / 2 ^ 48 % 256, w / 2 ^ 56 % 256]

/-- MD5 round function and message-word schedule for round `i`. -/
def md5F (b c d i : Nat) : Nat × Nat :=
  if i < 16 then
    (Nat.lor (Nat.land b c) (Nat.land (not32 b) d), i)
  else if i < 32 then
    (Nat.lor (Nat.land d b) (Nat.land (not32 d) c), (5 * i + 1) % 16)
  else if i < 48 then
    (Nat.xor b (Nat.xor c d), (3 * i + 5) % 16)
  else
    (Nat.xor c (Nat.lor b (not32 d)), (7 * i) % 16)

/-- One of the 64 MD5 rounds on the state `(a, b, c, d)`. -/
def md5Step (m : Nat → Nat) (st : Nat × Nat × Nat × Nat) (i : Nat) :
    Nat × Nat × Nat × Nat :=
  let (a, b, c, d) := st
  let (f, g) := md5F b c d i
  let f2 := (f + a + kTable.getD i 0 + m g) % M32
  (d, (b + rotl32 f2 (sTable.getD i 0)) % M32, b, c)

/-- Processing of one 64-byte chunk. -/
def md5Chunk (st : Nat × Nat × Nat × Nat) (chunk : List Nat) :
    Nat × Nat × Nat × Nat :=
  let m := fun j => le32 ((chunk.drop (4 * j)).take 4)
  let (a0, b0, c0, d0) := st
  let (a, b, c, d) := (List.range 64).foldl (md5Step m) (a0, b0, c0, d0)
  ((a0 + a) % M32, (b0 + b) % M32, (c0 + c) % M32, (d0 + d) % M32)

/-- Chunk loop, structurally recursive on a fuel argument so that it reduces
inside the kernel; every step consumes at least one byte, so a fuel equal to
the message length (as supplied by `md5Blocks`) is always enough. -/
def md5BlocksAux : Nat → Nat × Nat × Nat × Nat → List Nat → Nat × Nat × Nat × Nat
  | _, st, [] => st
  | 0, st, _ :: _ => st
  | fuel + 1, st, x :: rest =>
    md5BlocksAux fuel (md5Chunk st ((x :: rest).take 64)) ((x :: rest).drop 64)

/-- Processes a padded message 64 bytes at a time. -/
def md5Blocks (st : Nat × Nat × Nat × Nat) (l : List Nat) :
    Nat × Nat × Nat × Nat :=
  md5BlocksAux l.length st l

/-- MD5 padding: a `0x80` byte, zeros up to 56 mod 64, then the original
length in bits as a 64-bit little-endian quantity. -/
def md5Pad (msg : List Nat) : List Nat :=
  let len := msg.length
  let zeros := (64 + 56 - (len + 1) % 64) % 64
  msg ++ 0x80 :: List.replicate zeros 0 ++ toLE8 (8 * len % 2 ^ 64)

/-- The 16-byte MD5 digest of a byte list. -/
def md5Digest (msg : List Nat) : List Nat :=
  let (a, b, c, d) :=
    md5Blocks (0x67452301, 0xefcdab89, 0x98badcfe, 0x10325476) (md5Pad msg)
  toLE4 a ++ toLE4 b ++ toLE4 c ++ toLE4 d

/-- The lowercase hexadecimal digit for a value below 16. -/
def hexDigitChar (n : Nat) : Char :=
  if n < 10 then Char.ofNat (48 + n) else Char.ofNat (87 + n)

/-- The two lowercase hex digits of a byte (`{:02x}` in Rust). -/
def byteHex (b : Nat) : List Char := [hexDigitChar (b / 16 % 16), hexDigitChar (b % 16)]

/-- Model of `format!("{:x}", md5::compute(msg))`: the 32-character lowercase
hexadecimal rendering of the MD5 digest. -/
def md5Hex (msg : List Nat) : String := String.mk ((md5Digest msg).flatMap byteHex)

/-- Decider for membership of a character in the lowercase hex alphabet. -/
def isLowerHexChar (c : Char) : Bool := ("0123456789abcdef".data).contains c

/-! ### UTF-8 validity and the line count

`read_to_string` fails with an `io::Error` of kind `InvalidData` unless the
bytes read are valid UTF-8; `content.lines().count()` counts the
newline-separated segments of the content, counting a final segment that
lacks a trailing terminator but not an empty one after a final `\n`. -/

/-- A UTF-8 continuation byte (`10xxxxxx`). -/
def isCont (b : Nat) : Bool := 0x80 ≤ b && b < 0xC0

/-- Strict UTF-8 validity of a byte list, exactly as enforced by Rust's
`String`: continuation bytes where required, no overlong encodings, no
surrogates (`0xED 0xA0`..), nothing above `U+10FFFF`. -/
def validUtf8 : List Nat → Bool
  | [] => true
  | b :: rest =>
    if b < 0x80 then validUtf8 rest
    else if b < 0xC2 then false
    else if b < 0xE0 then
      match rest with
      | b1 :: r => isCont b1 && validUtf8 r
      | [] => false
    else if b < 0xF0 then
      match rest with
      | b1 :: b2 :: r =>
        (if b = 0xE0 then 0xA0 ≤ b1 && b1 < 0xC0
         else if b = 0xED then 0x80 ≤ b1 && b1 < 0xA0
         else isCont b1) && isCont b2 && validUtf8 r
      | _ => false
    else if b < 0xF5 then
      match rest with
      | b1 :: b2 :: b3 :: r =>
        (if b = 0xF0 then 0x90 ≤ b1 && b1 < 0xC0
         else if b = 0xF4 then 0x80 ≤ b1 && b1 < 0x90
         else isCont b1) && isCont b2 && isCont b3 && validUtf8 r
      | _ => false
    else false

/-- Model of `content.lines().count()` on the content bytes: a newline byte
(10) closes a line; a nonempty remainder without a trailing newline still
counts as a line.  (A carriage return only affects the text of a line, never
the count, so it needs no special case here.) -/
def linesCount : List Nat → Nat
  | [] => 0
  | b :: rest => if b = 10 then 1 + linesCount rest else max 1 (linesCount rest)

/-! ### The Source entity -/

/-- The two ways `Source::new` can fail with `std::io::Error`: the file
cannot be opened or read, or the bytes read are not valid UTF-8
(`ErrorKind::InvalidData` from `read_to_string`). -/
inductive IoError where
  | readFailure
  | invalidData

/-- The `Source` struct: one source file's coverage contribution.  File text
is carried as its bytes. -/
structure Source where
  name : String
  source_digest : String
  coverage : List (Option Nat)
  branches : Option (List Nat)
  source : Option (List Nat)

/-- The `Source` value built by the successful branch of `Source::new` from
already-read content bytes: `name` is `repo_path.to_str().unwrap_or("")`
(`repo_path` is `none` when the path is not valid UTF-8), the digest is the
hex MD5 of the content, `coverage` expands the hit map over
`content.lines().count()` lines, `branches` is expanded only when supplied,
and `source` keeps the content only when requested. -/
def Source.build (repo_path : Option String) (content : List Nat)
    (lines : Nat → Option Nat) (branches : Option (List BranchData))
    (include_source : Bool) : Source :=
  { name := repo_path.getD ""
    source_digest := md5Hex content
    coverage := expand_lines lines (linesCount content)
    branches :=
      match branches with
      | some b => some (expand_branches b)
      | none => none
    source := if include_source then some content else none }

/-- Model of `Source::new`.  `file` is the outcome of opening and fully
reading the file at `path` (`none` when that fails); a successful read is
then UTF-8-checked as `read_to_string` does, and on success the `Source`
value is built from the content. -/
def Source.new (repo_path : Option String) (file : Option (List Nat))
    (lines : Nat → Option Nat) (branches : Option (List BranchData))
    (include_source : Bool) : Except IoError Source :=
  match file with
  | none => .error .readFailure
  | some content =>
    if validUtf8 content then
      .ok (Source.build repo_path content lines branches include_source)
    else .error .invalidData

/-! ### Serialization -/

/-- JSON values, as far as this wire format needs them.  A string value is
either given directly (`jStr`) or as the UTF-8 bytes of file content
(`jBytes`). -/
inductive JVal where
  | jNull
  | jNum (n : Nat)
  | jStr (s : String)
  | jBytes (bs : List Nat)
  | jArr (xs : List JVal)
  | jObj (fields : List (String × JVal))

/-- One coverage slot as serialized: `None` becomes JSON `null`. -/
def serializeSlot : Option Nat → JVal
  | none => .jNull
  | some n => .jNum n

/-- The ordered field list emitted for a `Source` by the derived `Serialize`
instance: `name`, `source_digest`, `coverage` always, then `branches` and
`source` only when present (`skip_serializing_if = "Option::is_none"`). -/
def Source.serializeFields (s : Source) : List (String × JVal) :=
  [("name", .jStr s.name), ("source_digest", .jStr s.source_digest),
   ("coverage", .jArr (s.coverage.map serializeSlot))]
  ++ (match s.branches with
      | some b => [("branches", JVal.jArr (b.map JVal.jNum))]
      | none => [])
  ++ (match s.source with
      | some t => [("source", JVal.jBytes t)]
      | none => [])

/-- The `Service` struct (CI identification). -/
structure Service where
  service_name : String
  service_job_id : String

/-- The `Identity` enum: a repo token or a service identification, never
both. -/
inductive Identity where
  | RepoToken (token : String)
  | ServiceToken (s : Service)

/-- The `CoverallsReport` struct. -/
structure CoverallsReport where
  id : Identity
  source_files : List Source

/-- `CoverallsReport::new`: an empty report for the given identity. -/
def CoverallsReport.new (id : Identity) : CoverallsReport :=
  { id := id, source_files := [] }

/-- `CoverallsReport::add_source`: appends one source entry. -/
def CoverallsReport.add_source (r : CoverallsReport) (s : Source) : CoverallsReport :=
  { r with source_files := r.source_files ++ [s] }

/-- The ordered field list emitted by the hand-written `Serialize` impl for
`CoverallsReport`: the identity fields (token, or name then job id), then
`source_files` in list order. -/
def CoverallsReport.serializeFields (r : CoverallsReport) : List (String × JVal) :=
  (match r.id with
   | .RepoToken t => [("repo_token", JVal.jStr t)]
   | .ServiceToken serv =>
     [("service_name", JVal.jStr serv.service_name),
      ("service_job_id", JVal.jStr serv.service_job_id)])
  ++ [("source_files",
       JVal.jArr (r.source_files.map (fun s => JVal.jObj s.serializeFields)))]

/-- Serde serialization errors (the error type is opaque to the crate). -/
inductive SerError where
  | custom (msg : String)

/-- Model of `SerializeStruct::serialize_field` for the JSON serializer:
appends one field and, for the primitive field values this crate emits,
never fails. -/
def serializeField (st : List (String × JVal)) (k : String) (v : JVal) :
    Except SerError (List (String × JVal)) :=
  .ok (st ++ [(k, v)])

/-- The hand-written `Serialize::serialize` for `CoverallsReport`, kept in
the fallible serde style: each `serialize_field` call is threaded through
`?`, exactly as in the Rust impl. -/
def CoverallsReport.serializeImpl (r : CoverallsReport) :
    Except SerError (List (String × JVal)) := do
  let s : List (String × JVal) := []
  let s ← match r.id with
    | .RepoToken t => serializeField s "repo_token" (.jStr t)
    | .ServiceToken serv => do
      let s ← serializeField s "service_name" (.jStr serv.service_name)
      serializeField s "service_job_id" (.jStr serv.service_job_id)
  let s ← serializeField s "source_files"
    (.jArr (r.source_files.map (fun sf => JVal.jObj sf.serializeFields)))
  return s

/-- The body computed by `send_to_endpoint` before the request is made:
`match serde_json::to_string(&self)` keeps the `Ok` body and panics on
`Err`; `none` here models the panic branch being taken. -/
def reportBody (r : CoverallsReport) : Option (List (String × JVal)) :=
  match r.serializeImpl with
  | .ok body => some body
  | .error _ => none

/-- Helper for stating claim C2: field `j` of a flattened branch record. -/
def branchField (x : BranchData) (j : Nat) : Nat :=
  if j = 0 then x.line_number
  else if j = 1 then x.block_name
  else if j = 2 then x.branch_number
  else x.hits

/-- The hit map of the spec's worked example (5 and 6 hit once, 8 twice). -/
def exampleHits : Nat → Option Nat := fun k =>
  if k = 5 then some 1 else if k = 6 then some 1
  else if k = 8 then some 2 else none

/-- The branch records of the spec's worked example. -/
def exampleBranches : List BranchData :=
  [{ line_number := 3, block_name := 1, branch_number := 1, hits := 1 },
   { line_number := 4, block_name := 1, branch_number := 2, hits := 0 }]

/-! ## Sanity checks of the MD5 model against the RFC 1321 test vectors -/

/-- MD5 of the empty message, as in the RFC 1321 test suite. -/
theorem md5Hex_vector_empty : md5Hex [] = "d41d8cd98f00b204e9800998ecf8427e" := by
  decide

/-- MD5 of the three bytes of the ASCII text abc, as in RFC 1321. -/
theorem md5Hex_vector_abc : md5Hex [97, 98, 99] = "900150983cd24fb0d6963f7d28e17f72" := by
  decide

set_option maxRecDepth 4000 in
/-- MD5 of 70 repetitions of the letter a: a message that needs two chunks,
checked against an independent MD5 implementation. -/
theorem md5Hex_vector_two_chunks :
    md5Hex (List.replicate 70 97) = "0f5c6c4e740bfcc08c3c26ccb2673d46" := by
  decide

/-! ## Helper lemmas -/

/-- Unfolding of `expand_branches` on a cons cell. -/
theorem expand_branches_cons (x : BranchData) (b : List BranchData) :
    expand_branches (x :: b) =
      x.line_number :: x.block_name :: x.branch_number :: x.hits ::
        expand_branches b := by
  simp [expand_branches]

/-- Length of the flattened branch array. -/
theorem expand_branches_length (b : List BranchData) :
    (expand_branches b).length = 4 * b.length := by
  induction b with
  | nil => rfl
  | cons x rest ih => simp [expand_branches_cons, ih]; ring

/-- Element `4 * k + j` of the flattened branch array is field `j` of
record `k`. -/
theorem expand_branches_getElem (b : List BranchData) (j : Nat) (hj : j < 4) :
    ∀ k, (expand_branches b)[4 * k + j]? =
      (b[k]?).map (fun x => branchField x j) := by
  induction b with
  | nil => intro k; simp [expand_branches]
  | cons x rest ih =>
    intro k
    cases k with
    | zero =>
      simp only [Nat.mul_zero, Nat.zero_add]
      interval_cases j <;> simp [expand_branches_cons, branchField]
    | succ k2 =>
      have happ : expand_branches (x :: rest) =
          [x.line_number, x.block_name, x.branch_number, x.hits] ++
            expand_branches rest := by
        simp [expand_branches_cons]
      have hidx : 4 * (k2 + 1) + j = (4 * k2 + j) + 4 := by ring
      rw [happ, hidx,
        List.getElem?_append_right (by simp only [List.length_cons, List.length_nil]; omega)]
      have hsub : (4 * k2 + j) + 4 - 4 = 4 * k2 + j := by omega
      simp only [List.length_cons, List.length_nil, hsub]
      rw [List.getElem?_cons_succ]
      exact ih k2

/-- Every nonempty byte list has at least one line. -/
theorem linesCount_pos (bs : List Nat) (h : bs ≠ []) : 1 ≤ linesCount bs := by
  match bs with
  | b :: rest => by_cases hb : b = 10 <;> simp [linesCount, hb]

/-- Closed form of `linesCount`: one line per newline byte, plus one for a
nonempty final segment that lacks its terminator. -/
theorem linesCount_eq_count (bs : List Nat) :
    linesCount bs = bs.count 10 +
      (if bs ≠ [] ∧ bs.getLast? ≠ some 10 then 1 else 0) := by
  induction bs with
  | nil => simp [linesCount]
  | cons b rest ih =>
    by_cases hb : b = 10
    · subst hb
      cases rest with
      | nil => simp [linesCount]
      | cons c r =>
        rw [show linesCount (10 :: c :: r) = 1 + linesCount (c :: r) by
              simp [linesCount], ih]
        simp [List.count_cons, List.getLast?_cons_cons]
        omega
    · cases rest with
      | nil => simp [linesCount, hb, List.count_cons]
      | cons c r =>
        have hpos := linesCount_pos (c :: r) (by simp)
        rw [show linesCount (b :: c :: r) = max 1 (linesCount (c :: r)) by
              simp [linesCount, hb],
            Nat.max_eq_right hpos, ih]
        simp [List.count_cons, hb, List.getLast?_cons_cons]

/-- On a successful read of valid UTF-8 content, `Source.new` succeeds with
the value described by `Source.build`. -/
theorem source_new_some (rp : Option String) (bs : List Nat)
    (lines : Nat → Option Nat) (branches : Option (List BranchData))
    (include_source : Bool) (hv : validUtf8 bs = true) :
    Source.new rp (some bs) lines branches include_source =
      .ok (Source.build rp bs lines branches include_source) := by
  simp [Source.new, hv]

/-- Inversion: a successful `Source.new` forces valid UTF-8 content and the
`Source.build` value. -/
theorem source_new_ok (rp : Option String) (bs : List Nat)
    (lines : Nat → Option Nat) (branches : Option (List BranchData))
    (include_source : Bool) (s : Source)
    (h : Source.new rp (some bs) lines branches include_source = .ok s) :
    validUtf8 bs = true ∧ s = Source.build rp bs lines branches include_source := by
  by_cases hv : validUtf8 bs = true
  · rw [source_new_some rp bs lines branches include_source hv] at h
    exact ⟨hv, (Except.ok.inj h).symm⟩
  · rw [Bool.not_eq_true] at hv
    simp [Source.new, hv] at h

/-! ## Claim C1 -/

/-- Claim C1: for every line count and every hit map, `expand_lines` returns
a sequence of length exactly `line_count` whose slot `i` (0-based) holds the
hit entry of line `i + 1` (the entry of the map when `i + 1` is a key,
`none` otherwise), and keys of the map outside `[1, line_count]` have no
effect on the output. -/
theorem expand_lines_spec (h : Nat → Option Nat) (line_count : Nat) :
    (expand_lines h line_count).length = line_count ∧
    (∀ i, i < line_count → (expand_lines h line_count)[i]? = some (h (i + 1))) ∧
    (∀ g : Nat → Option Nat,
      (∀ k, 1 ≤ k → k ≤ line_count → h k = g k) →
      expand_lines h line_count = expand_lines g line_count) := by
  refine ⟨by simp [expand_lines], ?_, ?_⟩
  · intro i hi
    simp [expand_lines, List.getElem?_range hi]
  · intro g hg
    unfold expand_lines
    apply List.map_congr_left
    intro a ha
    have halt : a < line_count := List.mem_range.mp ha
    exact hg (a + 1) (by omega) (by omega)

/-- Witness for C1 at the spec's worked example: ten slots, slot 4 carrying
the entry of line 5. -/
theorem expand_lines_spec_witness :
    (expand_lines exampleHits 10).length = 10 ∧
    (expand_lines exampleHits 10)[4]? = some (some 1) ∧
    expand_lines exampleHits 10 = expand_lines exampleHits 10 := by
  refine ⟨(expand_lines_spec exampleHits 10).1, ?_, ?_⟩
  · have h2 := (expand_lines_spec exampleHits 10).2.1 4 (by omega)
    simpa [exampleHits] using h2
  · exact (expand_lines_spec exampleHits 10).2.2 exampleHits (fun k h1 h2 => rfl)

/-! ## Claim C2 -/

/-- Claim C2: `expand_branches` yields `4 * len b` entries; the window
starting at `4 * k` holds the line number, block name, branch number and
hits of record `k` in that order, and the empty list flattens to the empty
list. -/
theorem expand_branches_spec (b : List BranchData) :
    (expand_branches b).length = 4 * b.length ∧
    (∀ k, (hk : k < b.length) →
      (expand_branches b)[4 * k]? = some (b.get ⟨k, hk⟩).line_number ∧
      (expand_branches b)[4 * k + 1]? = some (b.get ⟨k, hk⟩).block_name ∧
      (expand_branches b)[4 * k + 2]? = some (b.get ⟨k, hk⟩).branch_number ∧
      (expand_branches b)[4 * k + 3]? = some (b.get ⟨k, hk⟩).hits) ∧
    expand_branches [] = ([] : List Nat) := by
  refine ⟨expand_branches_length b, ?_, rfl⟩
  intro k hk
  have hbk : b[k]? = some (b.get ⟨k, hk⟩) := by
    rw [List.getElem?_eq_getElem hk]
    simp
  have h0 := expand_branches_getElem b 0 (by omega) k
  have h1 := expand_branches_getElem b 1 (by omega) k
  have h2 := expand_branches_getElem b 2 (by omega) k
  have h3 := expand_branches_getElem b 3 (by omega) k
  rw [hbk] at h0 h1 h2 h3
  simp only [Nat.add_zero] at h0
  exact ⟨by simpa [branchField] using h0, by simpa [branchField] using h1,
    by simpa [branchField] using h2, by simpa [branchField] using h3⟩

/-- Witness for C2 at the spec's worked example: two records flatten to
eight entries, with the window at index 4 holding the second record. -/
theorem expand_branches_spec_witness :
    (expand_branches exampleBranches).length = 8 ∧
    (expand_branches exampleBranches)[4]? = some 4 ∧
    (expand_branches exampleBranches)[5]? = some 1 ∧
    (expand_branches exampleBranches)[6]? = some 2 ∧
    (expand_branches exampleBranches)[7]? = some 0 := by
  have hlen := (expand_branches_spec exampleBranches).1
  have hwin := (expand_branches_spec exampleBranches).2.1 1 (by decide)
  refine ⟨by simpa using hlen, ?_, ?_, ?_, ?_⟩
  · simpa [exampleBranches] using hwin.1
  · simpa [exampleBranches] using hwin.2.1
  · simpa [exampleBranches] using hwin.2.2.1
  · simpa [exampleBranches] using hwin.2.2.2

/-! ## Claim C3 -/

/-- Claim C3: the coverage field of every `Source` built by `Source.new` has
length exactly the line count of the file content, and that line count
counts a nonempty final line that lacks a trailing terminator. -/
theorem source_new_coverage_length (rp : Option String) (bs : List Nat)
    (lines : Nat → Option Nat) (branches : Option (List BranchData))
    (include_source : Bool) (s : Source)
    (h : Source.new rp (some bs) lines branches include_source = .ok s) :
    s.coverage.length = linesCount bs ∧
    linesCount bs = bs.count 10 +
      (if bs ≠ [] ∧ bs.getLast? ≠ some 10 then 1 else 0) := by
  obtain ⟨hv, rfl⟩ := source_new_ok rp bs lines branches include_source s h
  exact ⟨by simp [Source.build, expand_lines], linesCount_eq_count bs⟩

/-- Witness for C3 on the two-line content a, newline, b (no trailing
terminator): the coverage field has one slot per line, final line
included. -/
theorem source_new_coverage_length_witness :
    (Source.build (some "src/main") [97, 10, 98] exampleHits none false).coverage.length =
      linesCount [97, 10, 98] ∧
    linesCount [97, 10, 98] = [97, 10, 98].count 10 +
      (if [97, 10, 98] ≠ ([] : List Nat) ∧ [97, 10, 98].getLast? ≠ some 10 then 1 else 0) :=
  source_new_coverage_length (some "src/main") [97, 10, 98] exampleHits none false
    (Source.build (some "src/main") [97, 10, 98] exampleHits none false) rfl

/-! ## Claim C4 -/

/-- Claim C4: a `Source` built with no branch list serializes with no
branches key at all; one built with an empty branch list serializes with a
branches key holding the empty array; and when the source text was not
requested the source key is structurally absent. -/
theorem source_serialize_omission (rp : Option String) (file : Option (List Nat))
    (lines : Nat → Option Nat) (include_source : Bool) :
    (∀ s, Source.new rp file lines none include_source = .ok s →
      "branches" ∉ s.serializeFields.map Prod.fst) ∧
    (∀ s, Source.new rp file lines (some []) include_source = .ok s →
      ("branches", JVal.jArr []) ∈ s.serializeFields ∧
      "branches" ∈ s.serializeFields.map Prod.fst) ∧
    (∀ branches s, Source.new rp file lines branches false = .ok s →
      "source" ∉ s.serializeFields.map Prod.fst) := by
  refine ⟨?_, ?_, ?_⟩
  · intro s h
    cases file with
    | none => simp [Source.new] at h
    | some bs =>
      obtain ⟨hv, rfl⟩ := source_new_ok rp bs lines none include_source s h
      cases include_source <;>
        simp [Source.build, Source.serializeFields]
  · intro s h
    cases file with
    | none => simp [Source.new] at h
    | some bs =>
      obtain ⟨hv, rfl⟩ := source_new_ok rp bs lines (some []) include_source s h
      constructor
      · simp [Source.build, Source.serializeFields, expand_branches]
      · cases include_source <;>
          simp [Source.build, Source.serializeFields, expand_branches]
  · intro branches s h
    cases file with
    | none => simp [Source.new] at h
    | some bs =>
      obtain ⟨hv, rfl⟩ := source_new_ok rp bs lines branches false s h
      cases branches <;>
        simp [Source.build, Source.serializeFields]

/-- Witness for C4 on the two-byte content hi: no branches key without a
branch list, an empty branches array for the empty branch list, and no
source key when the text was not requested. -/
theorem source_serialize_omission_witness :
    "branches" ∉ (Source.build (some "a") [104, 105] exampleHits none
      false).serializeFields.map Prod.fst ∧
    ("branches", JVal.jArr []) ∈ (Source.build (some "a") [104, 105] exampleHits
      (some []) false).serializeFields ∧
    "source" ∉ (Source.build (some "a") [104, 105] exampleHits none
      false).serializeFields.map Prod.fst :=
  ⟨(source_serialize_omission (some "a") (some [104, 105]) exampleHits false).1
      (Source.build (some "a") [104, 105] exampleHits none false) rfl,
   ((source_serialize_omission (some "a") (some [104, 105]) exampleHits false).2.1
      (Source.build (some "a") [104, 105] exampleHits (some []) false) rfl).1,
   (source_serialize_omission (some "a") (some [104, 105]) exampleHits false).2.2 none
      (Source.build (some "a") [104, 105] exampleHits none false) rfl⟩

/-! ## Claim C6 -/

/-- Claim C6: when the file cannot be opened or fully read, `Source.new`
fails with the read error and produces no `Source` value at all. -/
theorem source_new_read_error (rp : Option String) (lines : Nat → Option Nat)
    (branches : Option (List BranchData)) (include_source : Bool) :
    Source.new rp none lines branches include_source = .error IoError.readFailure ∧
    ∀ s, Source.new rp none lines branches include_source ≠ .ok s := by
  refine ⟨rfl, ?_⟩
  intro s h
  simp [Source.new] at h

/-- Witness for C6: a failed read with a concrete hit map yields the read
error. -/
theorem source_new_read_error_witness :
    Source.new (some "b") none exampleHits none false = .error IoError.readFailure :=
  (source_new_read_error (some "b") exampleHits none false).1

/-! ## Claim C7: MD5 digest shape lemmas, then the claim -/

/-- The MD5 digest always consists of 16 bytes. -/
theorem md5Digest_length (msg : List Nat) : (md5Digest msg).length = 16 := by
  rcases hm : md5Blocks (0x67452301, 0xefcdab89, 0x98badcfe, 0x10325476)
      (md5Pad msg) with ⟨a, b, c, d⟩
  simp [md5Digest, hm, toLE4]

/-- Flattening through `byteHex` doubles the length. -/
theorem flatMap_byteHex_length (bs : List Nat) :
    (bs.flatMap byteHex).length = 2 * bs.length := by
  induction bs with
  | nil => rfl
  | cons b rest ih => simp [byteHex, ih]; ring

/-- The hex rendering of an MD5 digest has exactly 32 characters. -/
theorem md5Hex_length (msg : List Nat) : (md5Hex msg).length = 32 := by
  have h16 := md5Digest_length msg
  simp only [md5Hex, String.length, flatMap_byteHex_length, h16]

/-- Hex digits of values below 16 are lowercase hex characters. -/
theorem hexDigitChar_mem (n : Nat) (hn : n < 16) :
    isLowerHexChar (hexDigitChar n) = true := by
  interval_cases n <;> decide

/-- Every character of an MD5 hex rendering is a lowercase hex character,
leading zeros included. -/
theorem md5Hex_chars (msg : List Nat) :
    ∀ c ∈ (md5Hex msg).data, isLowerHexChar c = true := by
  intro c hc
  simp only [md5Hex] at hc
  rw [List.mem_flatMap] at hc
  obtain ⟨b, hb, hcb⟩ := hc
  simp only [byteHex, List.mem_cons, List.not_mem_nil, or_false] at hcb
  rcases hcb with h | h <;> subst h <;>
    exact hexDigitChar_mem _ (Nat.mod_lt _ (by omega))

/-- Claim C7: the digest of every successfully built `Source` is the
lowercase 32-hex-character MD5 of the exact content bytes that were read. -/
theorem source_new_digest (rp : Option String) (bs : List Nat)
    (lines : Nat → Option Nat) (branches : Option (List BranchData))
    (include_source : Bool) (s : Source)
    (h : Source.new rp (some bs) lines branches include_source = .ok s) :
    s.source_digest = md5Hex bs ∧ s.source_digest.length = 32 ∧
    ∀ c ∈ s.source_digest.data, isLowerHexChar c = true := by
  obtain ⟨hv, rfl⟩ := source_new_ok rp bs lines branches include_source s h
  exact ⟨rfl, md5Hex_length bs, md5Hex_chars bs⟩

/-- Witness for C7 on the content abc. -/
theorem source_new_digest_witness :
    (Source.build (some "c") [97, 98, 99] exampleHits none false).source_digest =
      md5Hex [97, 98, 99] ∧
    (Source.build (some "c") [97, 98, 99] exampleHits none false).source_digest.length = 32 ∧
    ∀ c ∈ (Source.build (some "c") [97, 98, 99] exampleHits none
      false).source_digest.data, isLowerHexChar c = true :=
  source_new_digest (some "c") [97, 98, 99] exampleHits none false
    (Source.build (some "c") [97, 98, 99] exampleHits none false) rfl

/-! ## Claim C5 -/

/-- Appending sources one at a time keeps them in insertion order. -/
theorem add_source_foldl (r : CoverallsReport) (ss : List Source) :
    (ss.foldl CoverallsReport.add_source r).source_files = r.source_files ++ ss := by
  induction ss generalizing r with
  | nil => simp
  | cons s rest ih => simp [ih, CoverallsReport.add_source]

/-- Claim C5: a serialized report carries either the repo token or the
service name/job pair, never both, always followed by `source_files`, and
`source_files` keeps the entries in the order they were added. -/
theorem report_serialize_spec (r : CoverallsReport) :
    ((∃ t, r.id = Identity.RepoToken t ∧
      r.serializeFields =
        [("repo_token", JVal.jStr t),
         ("source_files",
          JVal.jArr (r.source_files.map (fun s => JVal.jObj s.serializeFields)))]) ∨
     (∃ sv, r.id = Identity.ServiceToken sv ∧
      r.serializeFields =
        [("service_name", JVal.jStr sv.service_name),
         ("service_job_id", JVal.jStr sv.service_job_id),
         ("source_files",
          JVal.jArr (r.source_files.map (fun s => JVal.jObj s.serializeFields)))])) ∧
    ("repo_token" ∈ r.serializeFields.map Prod.fst ↔
      ¬ ("service_name" ∈ r.serializeFields.map Prod.fst ∨
         "service_job_id" ∈ r.serializeFields.map Prod.fst)) ∧
    (∀ (id : Identity) (ss : List Source), (ss.foldl CoverallsReport.add_source
        (CoverallsReport.new id)).source_files = ss) := by
  refine ⟨?_, ?_, ?_⟩
  · cases hid : r.id with
    | RepoToken t =>
      exact Or.inl ⟨t, rfl, by simp [CoverallsReport.serializeFields, hid]⟩
    | ServiceToken sv =>
      exact Or.inr ⟨sv, rfl, by simp [CoverallsReport.serializeFields, hid]⟩
  · cases hid : r.id with
    | RepoToken t => simp [CoverallsReport.serializeFields, hid]
    | ServiceToken sv => simp [CoverallsReport.serializeFields, hid]
  · intro id ss
    simp [add_source_foldl, CoverallsReport.new]

/-- Witness for C5 at a one-entry repo-token report. -/
theorem report_serialize_spec_witness :
    ((∃ t, (CoverallsReport.new (Identity.RepoToken "tok")).id = Identity.RepoToken t ∧
      (CoverallsReport.new (Identity.RepoToken "tok")).serializeFields =
        [("repo_token", JVal.jStr t),
         ("source_files",
          JVal.jArr ((CoverallsReport.new (Identity.RepoToken "tok")).source_files.map
            (fun s => JVal.jObj s.serializeFields)))]) ∨
     (∃ sv, (CoverallsReport.new (Identity.RepoToken "tok")).id = Identity.ServiceToken sv ∧
      (CoverallsReport.new (Identity.RepoToken "tok")).serializeFields =
        [("service_name", JVal.jStr sv.service_name),
         ("service_job_id", JVal.jStr sv.service_job_id),
         ("source_files",
          JVal.jArr ((CoverallsReport.new (Identity.RepoToken "tok")).source_files.map
            (fun s => JVal.jObj s.serializeFields)))])) ∧
    ("repo_token" ∈ (CoverallsReport.new
        (Identity.RepoToken "tok")).serializeFields.map Prod.fst ↔
      ¬ ("service_name" ∈ (CoverallsReport.new
            (Identity.RepoToken "tok")).serializeFields.map Prod.fst ∨
         "service_job_id" ∈ (CoverallsReport.new
            (Identity.RepoToken "tok")).serializeFields.map Prod.fst)) ∧
    (∀ (id : Identity) (ss : List Source), (ss.foldl CoverallsReport.add_source
        (CoverallsReport.new id)).source_files = ss) :=
  report_serialize_spec (CoverallsReport.new (Identity.RepoToken "tok"))

/-! ## Claim C8 -/

/-- Claim C8: serialization of a report is total: the fallible serde-style
serializer always returns the field list, so the error branch of
`send_to_endpoint` (the panic on a failed `serde_json::to_string`) is never
taken and the computed body is always present. -/
theorem report_serialize_total (r : CoverallsReport) :
    r.serializeImpl = .ok r.serializeFields ∧
    reportBody r = some r.serializeFields := by
  have h : r.serializeImpl = .ok r.serializeFields := by
    cases r with
    | mk id files => cases id <;> rfl
  exact ⟨h, by simp [reportBody, h]⟩

/-! ## Claim C9 -/

/-- Claim C9: when the repo-relative path is not representable as UTF-8
(`to_str()` yields no string), construction still succeeds on readable
valid-UTF-8 content, and the name silently becomes the empty string. -/
theorem source_new_name_empty (bs : List Nat) (lines : Nat → Option Nat)
    (branches : Option (List BranchData)) (include_source : Bool)
    (hv : validUtf8 bs = true) :
    Source.new none (some bs) lines branches include_source =
      .ok (Source.build none bs lines branches include_source) ∧
    (Source.build none bs lines branches include_source).name = "" :=
  ⟨source_new_some none bs lines branches include_source hv, rfl⟩

/-- Witness for C9 on the content hi. -/
theorem source_new_name_empty_witness :
    Source.new none (some [104, 105]) exampleHits none false =
      .ok (Source.build none [104, 105] exampleHits none false) ∧
    (Source.build none [104, 105] exampleHits none false).name = "" :=
  source_new_name_empty [104, 105] exampleHits none false (by decide)

/-! ## Claim C10 -/

/-- Claim C10: `Source.new` also fails, again with an io error, when the
bytes read are not valid UTF-8, and produces no `Source` value for such a
file. -/
theorem source_new_invalid_utf8 (rp : Option String) (bs : List Nat)
    (lines : Nat → Option Nat) (branches : Option (List BranchData))
    (include_source : Bool) (hv : validUtf8 bs = false) :
    Source.new rp (some bs) lines branches include_source = .error IoError.invalidData ∧
    ∀ s, Source.new rp (some bs) lines branches include_source ≠ .ok s := by
  have he : Source.new rp (some bs) lines branches include_source =
      .error IoError.invalidData := by
    simp [Source.new, hv]
  refine ⟨he, ?_⟩
  intro s h
  rw [he] at h
  cases h

/-- Witness for C10 on the lone byte 255, which no UTF-8 text contains. -/
theorem source_new_invalid_utf8_witness :
    Source.new (some "d") (some [255]) exampleHits none false =
      .error IoError.invalidData :=
  (source_new_invalid_utf8 (some "d") [255] exampleHits none false (by decide)).1

end Coveralls
